import Mathlib

/-!
Shallow embedding of `python-pdfbox` (file `pdfbox/__init__.py`): the
artifact acquisition / caching / version-resolution logic and the
command-line assembly of the operation methods, together with theorems
checking the natural-language specification against it.

Python byte strings are modelled as `List Nat` (each element `< 256`),
machine-free arithmetic is `Nat` with explicit `% 2 ^ 64` where the
64-bit wraparound of SHA-512 matters.
-/

namespace Pdfbox

/-! ### SHA-512 (embedding of `hashlib.sha512(...).hexdigest()`)

`PDFBox._verify_sha512` calls `hashlib.sha512(data).hexdigest()`.  We
implement FIPS 180-4 SHA-512 over `Nat`: the round constants are the
first 64 fractional bits of the cube roots of the first eighty primes,
the initial hash values those of the square roots of the first eight
primes; both are computed here from integer root extraction rather than
transcribed, so no constant table is trusted. -/

/-- Truncate to 64 bits. -/
def w64 (n : Nat) : Nat := n % (2 ^ 64)

/-- Right rotation of a 64-bit word. -/
def rotr (r x : Nat) : Nat := w64 ((x >>> r) ||| (x <<< (64 - r)))

/-- One step of bitwise binary search for the integer cube root. -/
def icbrtStep (n r i : Nat) : Nat :=
  let c := r + (1 <<< i)
  if c * c * c ≤ n then c else r

/-- Integer cube root (valid for `n < 2 ^ 204`). -/
def icbrt (n : Nat) : Nat := (List.range 68).reverse.foldl (icbrtStep n) 0

/-- One step of bitwise binary search for the integer square root. -/
def isqrtStep (n r i : Nat) : Nat :=
  let c := r + (1 <<< i)
  if c * c ≤ n then c else r

/-- Integer square root (valid for `n < 2 ^ 136`). -/
def isqrt (n : Nat) : Nat := (List.range 68).reverse.foldl (isqrtStep n) 0

/-- The first eighty primes, whose cube roots generate the SHA-512 round
constants. -/
def primes80 : List Nat :=
  [2, 3, 5, 7, 11, 13, 17, 19, 23, 29, 31, 37, 41, 43, 47, 53, 59, 61, 67, 71,
   73, 79, 83, 89, 97, 101, 103, 107, 109, 113, 127, 131, 137, 139, 149, 151,
   157, 163, 167, 173, 179, 181, 191, 193, 197, 199, 211, 223, 227, 229, 233,
   239, 241, 251, 257, 263, 269, 271, 277, 281, 283, 293, 307, 311, 313, 317,
   331, 337, 347, 349, 353, 359, 367, 373, 379, 383, 389, 397, 401, 409]

/-- SHA-512 round constants: first 64 fractional bits of the cube roots
of the first eighty primes. -/
def K512 : List Nat := primes80.map (fun p => w64 (icbrt (p <<< 192)))

/-- SHA-512 initial hash values: first 64 fractional bits of the square
roots of the first eight primes. -/
def H512 : List Nat := (primes80.take 8).map (fun p => w64 (isqrt (p <<< 128)))

def shaCh (x y z : Nat) : Nat := (x &&& y) ^^^ ((x ^^^ (2 ^ 64 - 1)) &&& z)

def shaMaj (x y z : Nat) : Nat := (x &&& y) ^^^ (x &&& z) ^^^ (y &&& z)

def bigSigma0 (x : Nat) : Nat := rotr 28 x ^^^ rotr 34 x ^^^ rotr 39 x

def bigSigma1 (x : Nat) : Nat := rotr 14 x ^^^ rotr 18 x ^^^ rotr 41 x

def smallSigma0 (x : Nat) : Nat := rotr 1 x ^^^ rotr 8 x ^^^ (x >>> 7)

def smallSigma1 (x : Nat) : Nat := rotr 19 x ^^^ rotr 61 x ^^^ (x >>> 6)

/-- Big-endian byte expansion (`count` bytes, most significant first). -/
def beBytes (count val : Nat) : List Nat :=
  (List.range count).reverse.map (fun i => (val >>> (8 * i)) % 256)

/-- FIPS 180-4 padding: append `0x80`, zeros, then the 128-bit
big-endian bit length, reaching a multiple of 128 bytes. -/
def padMessage (msg : List Nat) : List Nat :=
  let L := msg.length
  let k := (128 - (L + 17) % 128) % 128
  msg ++ [0x80] ++ List.replicate k 0 ++ beBytes 16 (8 * L)

/-- Big-endian bytes to word. -/
def bytesToWord (bs : List Nat) : Nat := bs.foldl (fun acc b => acc * 256 + b) 0

/-- Cut a list into chunks of `k` elements (fuelled recursion). -/
def chunksAux (k : Nat) : Nat → List α → List (List α)
  | 0, _ => []
  | _, [] => []
  | fuel + 1, l => l.take k :: chunksAux k fuel (l.drop k)

def chunks (k : Nat) (l : List α) : List (List α) := chunksAux k l.length l

/-- Extend a 16-word block with one further schedule word. -/
def scheduleStep (w : List Nat) (_i : Nat) : List Nat :=
  let n := w.length
  w ++ [w64 (smallSigma1 (w.getD (n - 2) 0) + w.getD (n - 7) 0 +
             smallSigma0 (w.getD (n - 15) 0) + w.getD (n - 16) 0)]

/-- The 80-word message schedule of one block. -/
def schedule (block : List Nat) : List Nat :=
  (List.range 64).foldl scheduleStep block

/-- One compression round; the state is the word list `[a,b,c,d,e,f,g,h]`. -/
def shaRound (st : List Nat) (kw : Nat × Nat) : List Nat :=
  let a := st.getD 0 0
  let b := st.getD 1 0
  let c := st.getD 2 0
  let d := st.getD 3 0
  let e := st.getD 4 0
  let f := st.getD 5 0
  let g := st.getD 6 0
  let h := st.getD 7 0
  let t1 := h + bigSigma1 e + shaCh e f g + kw.1 + kw.2
  let t2 := bigSigma0 a + shaMaj a b c
  [w64 (t1 + t2), a, b, c, w64 (d + t1), e, f, g]

/-- Compress one 128-byte block into the running hash. -/
def compressBlock (hs : List Nat) (block : List Nat) : List Nat :=
  (hs.zip ((K512.zip (schedule ((chunks 8 block).map bytesToWord))).foldl shaRound hs)).map
    (fun p => w64 (p.1 + p.2))

/-- SHA-512 of a byte string, as the list of eight 64-bit hash words. -/
def sha512words (msg : List Nat) : List Nat :=
  ((chunks 128 (padMessage msg))).foldl compressBlock H512

/-- Lowercase hexadecimal digit. -/
def hexChar (n : Nat) : Char :=
  if n < 10 then Char.ofNat (48 + n) else Char.ofNat (87 + n)

/-- A 64-bit word as 16 lowercase hex characters. -/
def wordHex (v : Nat) : String :=
  String.mk ((List.range 16).reverse.map (fun i => hexChar ((v >>> (4 * i)) % 16)))

/-- `hashlib.sha512(msg).hexdigest()`: the 128-character lowercase hex
digest. -/
def sha512hex (msg : List Nat) : String := String.join ((sha512words msg).map wordHex)

/-! #### Concrete evaluation of SHA-512 on the empty byte string

The checksum-mismatch scenarios below need the digest of a concrete
payload.  Forcing all eighty rounds in one kernel reduction nests too
deeply, so the computation is staged: each lemma evaluates at most
twenty rounds from an already-literal state, and the stages are chained
with `List.take_append_drop` / `List.foldl_append`. -/

def hInit : List Nat :=
  [7640891576956012808, 13503953896175478587, 4354685564936845355, 11912009170470909681,
   5840696475078001361, 11170449401992604703, 2270897969802886507, 6620516959819538809]

def w16Nil : List Nat :=
  [9223372036854775808, 0, 0, 0, 0, 0, 0, 0,
   0, 0, 0, 0, 0, 0, 0, 0]

def wsNil : List Nat :=
  [9223372036854775808, 0, 0, 0,
   0, 0, 0, 0,
   0, 0, 0, 0,
   0, 0, 0, 0,
   9223372036854775808, 0, 144132780261900292, 0,
   1155173304454086688, 0, 9224535324720890176, 9223372036854775808,
   146666604812306432, 288265560523800584, 1243169432437604392, 3465519913362260064,
   11692752768149889090, 4653151464457472, 15323855909384817045, 4876574312498210832,
   14639603247754544148, 3434786857230368820, 9013053720714969912, 10981963730338967295,
   14505461409933268600, 10568723117816178525, 51053405127713065, 7505555249610797273,
   18252215520407452834, 4079059491340002047, 17873331272771716404, 18197477866010144683,
   2586653930017323, 5279201199531870604, 7489938729579517538, 2581045260704602993,
   309334448297401143, 3688400740553181013, 11915011874665163476, 15548373201946704186,
   976836368697803132, 15440532245632154827, 13159214976914891887, 14489188410753582394,
   7359474398803404219, 153235613781274047, 10975724157807346904, 12239009553022252559,
   13205109041321307169, 11807957215129485051, 12027190436797570982, 16915464566074054049,
   3554530596002172539, 5162489885373305514, 1980304498657416535, 2902461406060293815,
   4891631205827345334, 11101613502430268959, 11718169689323905103, 18325423463113385581,
   12562554357919657550, 5822938288807249808, 5798868973202240978, 9294985631150403737,
   1771184806411634331, 14339725245072215721, 4516957551734913270, 15555311401511284977]

def st20Nil : List Nat :=
  [7734293196620315496, 4033839186870516833, 5445652770168082403, 8840497292585197881,
   5413236793500659674, 2973634716007085336, 15040606452879806816, 646553923164708439]

def st40Nil : List Nat :=
  [17213066933721301641, 13363768375348189923, 13338586611699462541, 562895653643573725,
   1550048659728911534, 178468805797219866, 236018110615543007, 16093252329527309962]

def st60Nil : List Nat :=
  [16473799315705177144, 6958683771364637476, 8760742569479425100, 14622775710724481821,
   12148701037719819941, 10007755103835699626, 8217655905464706989, 16532751250429078779]

def st80Nil : List Nat :=
  [7312151230723321781, 3885614492668844236, 11074897468750699953, 16043145579270746845,
   17780913627677552607, 7241137592123555856, 4914931399657504022, 5284804158881904837]

def hashNil : List Nat :=
  [14953042807679334589, 17389568388844322823, 15429583033687545308, 9508410676032104910,
   5174866029046002352, 18411586994116160559, 7185829369460390529, 11905321118701443646]

def kLit : List Nat :=
  [4794697086780616226, 8158064640168781261, 13096744586834688815, 16840607885511220156,
   4131703408338449720, 6480981068601479193, 10538285296894168987, 12329834152419229976,
   15566598209576043074, 1334009975649890238, 2608012711638119052, 6128411473006802146,
   8268148722764581231, 9286055187155687089, 11230858885718282805, 13951009754708518548,
   16472876342353939154, 17275323862435702243, 1135362057144423861, 2597628984639134821,
   3308224258029322869, 5365058923640841347, 6679025012923562964, 8573033837759648693,
   10970295158949994411, 12119686244451234320, 12683024718118986047, 13788192230050041572,
   14330467153632333762, 15395433587784984357, 489312712824947311, 1452737877330783856,
   2861767655752347644, 3322285676063803686, 5560940570517711597, 5996557281743188959,
   7280758554555802590, 8532644243296465576, 9350256976987008742, 10552545826968843579,
   11727347734174303076, 12113106623233404929, 14000437183269869457, 14369950271660146224,
   15101387698204529176, 15463397548674623760, 17586052441742319658, 1182934255886127544,
   1847814050463011016, 2177327727835720531, 2830643537854262169, 3796741975233480872,
   4115178125766777443, 5681478168544905931, 6601373596472566643, 7507060721942968483,
   8399075790359081724, 8693463985226723168, 9568029438360202098, 10144078919501101548,
   10430055236837252648, 11840083180663258601, 13761210420658862357, 14299343276471374635,
   14566680578165727644, 15097957966210449927, 16922976911328602910, 17689382322260857208,
   500013540394364858, 748580250866718886, 1242879168328830382, 1977374033974150939,
   2944078676154940804, 3659926193048069267, 4368137639120453308, 4836135668995329356,
   5532061633213252278, 6448918945643986474, 6902733635092675308, 7801388544844847127]

set_option maxRecDepth 8000 in
lemma H512_eq : H512 = hInit := by decide

set_option maxRecDepth 8000 in
lemma K512_eq : K512 = kLit := by decide

set_option maxRecDepth 8000 in
lemma words_nil : (chunks 8 (padMessage ([] : List Nat))).map bytesToWord = w16Nil := by decide

set_option maxRecDepth 8000 in
lemma schedule_nil : schedule w16Nil = wsNil := by decide

set_option maxRecDepth 8000 in
lemma round20 : ((kLit.zip wsNil).take 20).foldl shaRound hInit = st20Nil := by decide

set_option maxRecDepth 8000 in
lemma round40 : (((kLit.zip wsNil).drop 20).take 20).foldl shaRound st20Nil = st40Nil := by
  decide

set_option maxRecDepth 8000 in
lemma round60 : ((((kLit.zip wsNil).drop 20).drop 20).take 20).foldl shaRound st40Nil = st60Nil := by
  decide

set_option maxRecDepth 8000 in
lemma round80 : ((((kLit.zip wsNil).drop 20).drop 20).drop 20).foldl shaRound st60Nil = st80Nil := by
  decide

lemma fold80 : (kLit.zip wsNil).foldl shaRound hInit = st80Nil := by
  rw [← List.take_append_drop 20 (kLit.zip wsNil), List.foldl_append, round20]
  rw [← List.take_append_drop 20 ((kLit.zip wsNil).drop 20), List.foldl_append, round40]
  rw [← List.take_append_drop 20 (((kLit.zip wsNil).drop 20).drop 20), List.foldl_append,
    round60, round80]

set_option maxRecDepth 8000 in
lemma chunks_pad_nil : chunks 128 (padMessage ([] : List Nat)) = [padMessage []] := by decide

lemma compress_nil : compressBlock H512 (padMessage []) = hashNil := by
  unfold compressBlock
  rw [words_nil, schedule_nil, K512_eq, H512_eq, fold80]
  decide

theorem sha512words_nil : sha512words [] = hashNil := by
  unfold sha512words
  rw [chunks_pad_nil, List.foldl_cons, List.foldl_nil, compress_nil]

set_option maxRecDepth 8000 in
theorem sha512hex_nil :
    sha512hex [] = "cf83e1357eefb8bdf1542850d66d8007d620e4050b5715dc83f4a921d36ce9ce47d0d13c5d85f2b0ff8318d2877eec2f63b931bd47417a81a538327af927da3e" := by
  unfold sha512hex
  rw [sha512words_nil]
  decide


/-! ### Version ordering

`_get_latest_pdfbox_url` runs `sorted(p.result, key=pkg_resources.parse_version)[-1]`
and `_get_pdfbox_path` runs `sorted(file_list, key=f)[-1]` with the same
key on the version embedded in the file name.  `pkg_resources.parse_version`
parses a PEP 440 version — optional `v`, optional epoch `N!`, a release
segment `N(.N)*`, optional pre-release (`a`/`alpha`, `b`/`beta`,
`c`/`rc`/`pre`/`preview`), post-release (`-N`, `post`, `rev`, `r`) and
`dev` groups and an optional `+local` label, case-insensitively and
with surrounding whitespace stripped — and falls back to
`LegacyVersion` for anything unparseable;
a legacy version compares below every valid one (its key carries epoch
−1).  Valid keys compare by epoch, then the release tuple with trailing
zeros trimmed, then the pre/post/dev segments, where a dev-only release
sorts below any pre-release, a pre-release below its plain release, and
the plain release below its post-releases.  The whole key is embedded
below as a `List Nat` compared by `versionLe`.  Python's `sorted` is a
stable comparison sort; it is embedded as `List.insertionSort`, and
`[-1]` (an `IndexError` on the empty list) as `List.getLast?`. -/

/-- `str.split(sep)` for a single-character separator. -/
def splitOnChar (sep : Char) : List Char → List (List Char)
  | [] => [[]]
  | c :: cs =>
    match splitOnChar sep cs with
    | [] => [[]]
    | h :: t => if c = sep then [] :: h :: t else (c :: h) :: t

/-- Python `str.strip()`: remove leading and trailing whitespace. -/
def pyStrip (s : String) : String :=
  String.mk (((s.data.dropWhile Char.isWhitespace).reverse.dropWhile Char.isWhitespace).reverse)

/-- A parsed PEP 440 version.  `pre` is the normalised pre-release
letter rank (`a` 0, `b` 1, `rc` 2) with its number; `localPart` holds
the separator-split segments of the local version label, when one is
present. -/
structure PV where
  epoch : Nat
  release : List Nat
  pre : Option (Nat × Nat)
  post : Option Nat
  dev : Option Nat
  localPart : Option (List (List Char))

/-- The separators PEP 440 allows around segment letters. -/
def isSep (c : Char) : Bool := c = '-' || c = '_' || c = '.'

/-- Candidates for the regex fragment `[-_\.]?`, greedy first. -/
def sepSplit (cs : List Char) : List (List Char) :=
  match cs with
  | c :: rest => if isSep c then [rest, cs] else [cs]
  | [] => [[]]

/-- Decimal value of a digit run. -/
def digitsVal (ds : List Char) : Nat :=
  ds.foldl (fun a c => a * 10 + (c.toNat - 48)) 0

/-- Candidates for an optional trailing number `([0-9]+)?`, greedy
first; a missing number reads as 0, as `packaging` normalises. -/
def numSplit (cs : List Char) : List (Nat × List Char) :=
  let p := cs.span Char.isDigit
  if p.1.isEmpty then [(0, cs)] else [(digitsVal p.1, p.2), (0, cs)]

/-- Strip `w` when it is a prefix of the input. -/
def stripWord : List Char → List Char → Option (List Char)
  | [], cs => some cs
  | _, [] => none
  | w :: ws, c :: cs => if c = w then stripWord ws cs else none

/-- The pre-release words with their normalised rank (`alpha`/`a` 0,
`beta`/`b` 1, `c`/`rc`/`pre`/`preview` 2).  Every alternative is
validated against the whole remaining tail below, which makes the
regex's backtracking order immaterial. -/
def preWords : List (List Char × Nat) :=
  [(['a'], 0), (['b'], 1), (['c'], 2), (['r', 'c'], 2),
   (['a', 'l', 'p', 'h', 'a'], 0), (['b', 'e', 't', 'a'], 1),
   (['p', 'r', 'e'], 2), (['p', 'r', 'e', 'v', 'i', 'e', 'w'], 2)]

/-- The post-release words, all normalised to `post`. -/
def postWords : List (List Char) := [['p', 'o', 's', 't'], ['r', 'e', 'v'], ['r']]

/-- Candidates for the optional pre-release group
`([-_\.]?(a|b|c|rc|alpha|beta|pre|preview)[-_\.]?([0-9]+)?)?`, ending
with the group absent. -/
def preSplit (cs : List Char) : List (Option (Nat × Nat) × List Char) :=
  ((sepSplit cs).flatMap (fun r1 =>
    preWords.flatMap (fun w =>
      match stripWord w.1 r1 with
      | none => []
      | some r2 =>
        (sepSplit r2).flatMap (fun r3 =>
          (numSplit r3).map (fun p => (some (w.2, p.1), p.2)))))) ++ [(none, cs)]

/-- Candidates for the optional post-release group: the `-N` shorthand
first, then `[-_\.]?(post|rev|r)[-_\.]?([0-9]+)?`, then absent. -/
def postSplit (cs : List Char) : List (Option Nat × List Char) :=
  (match cs with
   | '-' :: rest =>
     let p := rest.span Char.isDigit
     if p.1.isEmpty then [] else [(some (digitsVal p.1), p.2)]
   | _ => []) ++
  ((sepSplit cs).flatMap (fun w1 =>
    postWords.flatMap (fun w =>
      match stripWord w w1 with
      | none => []
      | some r2 =>
        (sepSplit r2).flatMap (fun r3 =>
          (numSplit r3).map (fun p => (some p.1, p.2)))))) ++ [(none, cs)]

/-- Candidates for the optional `[-_\.]?dev[-_\.]?([0-9]+)?` group,
ending with the group absent. -/
def devSplit (cs : List Char) : List (Option Nat × List Char) :=
  ((sepSplit cs).flatMap (fun r1 =>
    match stripWord ['d', 'e', 'v'] r1 with
    | none => []
    | some r2 =>
      (sepSplit r2).flatMap (fun r3 =>
        (numSplit r3).map (fun p => (some p.1, p.2))))) ++ [(none, cs)]

/-- A character the local version label may contain (the input is
already lowercased). -/
def isLocalChar (c : Char) : Bool := c.isDigit || (c ≥ 'a' && c ≤ 'z')

/-- Further separator-led segments of the local version label (fuelled
recursion; each step consumes at least two characters). -/
def localLoop : Nat → List Char → Option (List (List Char))
  | _, [] => some []
  | 0, _ => none
  | fuel + 1, c :: rest =>
    if isSep c then
      let p := rest.span isLocalChar
      if p.1.isEmpty then none
      else (localLoop fuel p.2).map (fun t => p.1 :: t)
    else none

/-- The optional local version label
`(\+[a-z0-9]+([-_\.][a-z0-9]+)*)?`, which must close the string:
`some none` when absent, `some (some segments)` when present, `none`
when the rest of the input is not a well-formed local label. -/
def parseLocal (cs : List Char) : Option (Option (List (List Char))) :=
  match cs with
  | [] => some none
  | '+' :: rest =>
    let p := rest.span isLocalChar
    if p.1.isEmpty then none
    else (localLoop rest.length p.2).map (fun t => some (p.1 :: t))
  | _ => none

/-- Further `.N` components of the release segment (fuelled recursion;
each step consumes at least two characters). -/
def relLoop : Nat → List Nat → List Char → (List Nat × List Char)
  | 0, acc, cs => (acc, cs)
  | fuel + 1, acc, cs =>
    match cs with
    | '.' :: rest =>
      let p := rest.span Char.isDigit
      if p.1.isEmpty then (acc, cs) else relLoop fuel (acc ++ [digitsVal p.1]) p.2
    | _ => (acc, cs)

/-- The PEP 440 parse of an already lowercased and stripped character
string: optional `v`, optional epoch `N!`, release `N(.N)*`, then the
pre/post/dev groups, which must consume the whole rest. -/
def parseValidChars (cs0 : List Char) : Option PV :=
  let cs1 := match cs0 with
    | 'v' :: r => r
    | _ => cs0
  let pd := cs1.span Char.isDigit
  if pd.1.isEmpty then none
  else
    let ep := match pd.2 with
      | '!' :: r2 => (digitsVal pd.1, r2)
      | _ => (0, cs1)
    let pr := ep.2.span Char.isDigit
    if pr.1.isEmpty then none
    else
      let rel := relLoop ep.2.length [digitsVal pr.1] pr.2
      (preSplit rel.2).findSome? (fun pc =>
        (postSplit pc.2).findSome? (fun qc =>
          (devSplit qc.2).findSome? (fun dc =>
            (parseLocal dc.2).map (fun lp => ⟨ep.1, rel.1, pc.1, qc.1, dc.1, lp⟩))))

/-- Trailing zeros of the release segment are insignificant
(`packaging` trims them before comparing): `2.0` equals `2.0.0`. -/
def trimRelease (r : List Nat) : List Nat :=
  (r.reverse.dropWhile (· = 0)).reverse

/-- The pre/post/dev part of the comparison key, from `packaging`'s
`_cmpkey`: a dev-only release sorts below any pre-release (first
component 0), a pre-release (1) below the plain release (2); a plain
release sorts below its post-releases, and a dev segment sorts a given
release below its non-dev form. -/
def segKey (pv : PV) : List Nat :=
  (match pv.pre, pv.post, pv.dev with
   | none, none, some _ => [0, 0, 0]
   | some p, _, _ => [1, p.1, p.2]
   | none, _, _ => [2, 0, 0]) ++
  (match pv.post with
   | none => [0, 0]
   | some n => [1, n]) ++
  (match pv.dev with
   | none => [1, 0]
   | some n => [0, n])

/-- One local segment of the comparison key: a numeric segment (2, by
value) sorts above any alphanumeric one (1, by code points, with a 0
terminator so a proper prefix sorts first), as in `packaging`. -/
def localSegKey (seg : List Char) : List Nat :=
  if seg.all Char.isDigit then [2, digitsVal seg]
  else 1 :: seg.map Char.toNat ++ [0]

/-- The local part of the comparison key: an absent label (`[0]`)
sorts below any present one (`1 :: …`); present labels compare
segment by segment. -/
def localKey : Option (List (List Char)) → List Nat
  | none => [0]
  | some segs => 1 :: segs.flatMap localSegKey

/-- The sort key of `pkg_resources.parse_version`, as a `List Nat`
compared by `versionLe`.  A parseable string gives a valid key
`1 :: epoch :: release' ++ [0] ++ segKey` where `release'` is the
trimmed release with every component shifted by one, so the `0`
terminator makes releases of different lengths compare exactly as
their trimmed tuples do; an unparseable string falls back to a legacy
key `0 :: …` below every valid key, as `pkg_resources` gives
`LegacyVersion` epoch −1.  Among themselves, unparseable strings are
ordered here by code point — a modelling choice that cannot affect the
selected maximum while any parseable version is listed, the only case
the claims engage. -/
def pvKey (s : String) : List Nat :=
  match parseValidChars ((pyStrip s).data.map Char.toLower) with
  | some pv =>
    1 :: pv.epoch ::
      ((trimRelease pv.release).map (· + 1) ++ [0] ++ segKey pv ++ localKey pv.localPart)
  | none => 0 :: ((pyStrip s).data.map Char.toLower).map Char.toNat

/-- A version string `pkg_resources.parse_version` parses as a real
(PEP 440) version rather than falling back to a legacy one. -/
def wellFormedVersion (s : String) : Bool :=
  (parseValidChars ((pyStrip s).data.map Char.toLower)).isSome

/-- Componentwise ≤ on version component lists, missing components
reading as zero (release-tuple comparison of `pkg_resources`). -/
def versionLe : List Nat → List Nat → Bool
  | [], _ => true
  | x :: xs, [] => if x = 0 then versionLe xs [] else false
  | x :: xs, y :: ys =>
    if x < y then true else if x = y then versionLe xs ys else false

lemma versionLe_of_lt {x y : Nat} (xs ys : List Nat) (h : x < y) :
    versionLe (x :: xs) (y :: ys) = true := by
  simp [versionLe, h]

lemma versionLe_of_head_eq {x : Nat} {xs ys : List Nat} (h : versionLe xs ys = true) :
    versionLe (x :: xs) (x :: ys) = true := by
  simp [versionLe, h]

lemma versionLe_refl (a : List Nat) : versionLe a a = true := by
  induction a with
  | nil => rfl
  | cons x xs ih => exact versionLe_of_head_eq ih

lemma versionLe_cons_nil {x : Nat} {xs : List Nat} (h : versionLe (x :: xs) [] = true) :
    x = 0 ∧ versionLe xs [] = true := by
  by_cases hx : x = 0
  · exact ⟨hx, by simpa [versionLe, hx] using h⟩
  · simp [versionLe, hx] at h

lemma versionLe_cons_cons {x y : Nat} {xs ys : List Nat}
    (h : versionLe (x :: xs) (y :: ys) = true) :
    x < y ∨ (x = y ∧ versionLe xs ys = true) := by
  by_cases hlt : x < y
  · exact Or.inl hlt
  · by_cases heq : x = y
    · exact Or.inr ⟨heq, by simpa [versionLe, hlt, heq] using h⟩
    · simp [versionLe, hlt, heq] at h

lemma versionLe_nil_of (xs : List Nat) :
    ∀ ys, versionLe xs [] = true → versionLe xs ys = true := by
  induction xs with
  | nil => intro ys _; rfl
  | cons x xs ih =>
    intro ys h
    rcases versionLe_cons_nil h with ⟨hx, hrest⟩
    subst hx
    cases ys with
    | nil => exact h
    | cons y ys =>
      by_cases hy : 0 < y
      · exact versionLe_of_lt _ _ hy
      · have hy0 : y = 0 := by omega
        subst hy0
        exact versionLe_of_head_eq (ih _ hrest)

lemma versionLe_trans (a : List Nat) :
    ∀ b c, versionLe a b = true → versionLe b c = true → versionLe a c = true := by
  induction a with
  | nil => intro b c _ _; rfl
  | cons x xs ih =>
    intro b c hab hbc
    cases b with
    | nil => exact versionLe_nil_of _ _ hab
    | cons y ys =>
      cases c with
      | nil =>
        rcases versionLe_cons_nil hbc with ⟨hy, hys⟩
        rcases versionLe_cons_cons hab with hlt | ⟨heq, hxs⟩
        · omega
        · subst heq; subst hy
          simpa [versionLe] using ih _ _ hxs hys
      | cons z zs =>
        rcases versionLe_cons_cons hab with hlt | ⟨heq, hxs⟩ <;>
          rcases versionLe_cons_cons hbc with hlt2 | ⟨heq2, hys⟩
        · exact versionLe_of_lt _ _ (by omega)
        · exact versionLe_of_lt _ _ (by omega)
        · exact versionLe_of_lt _ _ (by omega)
        · subst heq; subst heq2
          exact versionLe_of_head_eq (ih _ _ hxs hys)

lemma versionLe_total (a : List Nat) :
    ∀ b, versionLe a b = true ∨ versionLe b a = true := by
  induction a with
  | nil => intro b; exact Or.inl rfl
  | cons x xs ih =>
    intro b
    cases b with
    | nil => exact Or.inr rfl
    | cons y ys =>
      rcases Nat.lt_trichotomy x y with h | h | h
      · exact Or.inl (versionLe_of_lt _ _ h)
      · subst h
        rcases ih ys with h2 | h2
        · exact Or.inl (versionLe_of_head_eq h2)
        · exact Or.inr (versionLe_of_head_eq h2)
      · exact Or.inr (versionLe_of_lt _ _ h)

/-- The comparison `sorted(..., key=pkg_resources.parse_version)` sorts
under. -/
def versionKeyLe (a b : String) : Prop :=
  versionLe (pvKey a) (pvKey b) = true

instance : DecidableRel versionKeyLe := fun a b =>
  inferInstanceAs (Decidable (versionLe (pvKey a) (pvKey b) = true))

instance : IsTrans String versionKeyLe :=
  ⟨fun _ _ _ => versionLe_trans _ _ _⟩

instance : IsTotal String versionKeyLe :=
  ⟨fun _ _ => versionLe_total _ _⟩

instance : IsRefl String versionKeyLe :=
  ⟨fun _ => versionLe_refl _⟩

/-- `sorted(versions, key=pkg_resources.parse_version)[-1]`; `none`
models the `IndexError` that `[-1]` raises on an empty list. -/
def selectLatestVersion (l : List String) : Option String :=
  (List.insertionSort versionKeyLe l).getLast?

/-- The last element of a sorted list is a maximum. -/
lemma rel_getLast_of_sorted {α : Type} {r : α → α → Prop} [IsRefl α r] :
    ∀ {l : List α}, l.Sorted r → ∀ x ∈ l, ∀ (h : l ≠ []), r x (l.getLast h) := by
  intro l
  induction l with
  | nil => intro _ x hx; cases hx
  | cons a t ih =>
    intro hs x hx h
    cases t with
    | nil =>
      rcases List.mem_singleton.mp hx with rfl
      exact IsRefl.refl x
    | cons b t2 =>
      rw [List.getLast_cons_cons]
      rcases List.mem_cons.mp hx with rfl | hx2
      · exact (List.sorted_cons.mp hs).1 _ (List.getLast_mem _)
      · exact ih (List.sorted_cons.mp hs).2 _ hx2 (List.cons_ne_nil _ _)

/-- `getLast?` of a sorted list is a maximum. -/
lemma rel_getLast?_of_sorted {α : Type} {r : α → α → Prop} [IsRefl α r]
    {l : List α} (hs : l.Sorted r) {v : α} (hv : l.getLast? = some v) :
    ∀ x ∈ l, r x v := by
  intro x hx
  have hne : l ≠ [] := by
    rintro rfl; cases hv
  rw [List.getLast?_eq_getLast_of_ne_nil hne] at hv
  cases hv
  exact rel_getLast_of_sorted hs x hx hne

/-! ### `_PDFBoxVersionsParser`

`html.parser.HTMLParser` delivers the document to `handle_starttag` as
a stream of `(tag, attrs)` events; the page is modelled as that event
stream.  For each `a` tag, every `href` attribute value is stripped of
leading and trailing slashes and appended to `self.result` when
`re.search('\d+\.\d+\.\d+.*', s)` matches. -/

/-- A start-tag event: tag name and attribute list (an attribute name
may repeat, as in `html.parser`). -/
structure Tag where
  name : String
  attrs : List (String × String)

/-- Python `s.strip('/')`: remove leading and trailing `/` runs. -/
def stripSlashes (s : String) : String :=
  String.mk (((s.data.dropWhile (· == '/')).reverse.dropWhile (· == '/')).reverse)

/-- Drop a leading run of decimal digits. -/
def dropDigits : List Char → List Char
  | [] => []
  | c :: cs => if c.isDigit then dropDigits cs else c :: cs

/-- Consume one or more decimal digits, returning the rest. -/
def digits1 : List Char → Option (List Char)
  | [] => none
  | c :: cs => if c.isDigit then some (dropDigits cs) else none

/-- Does `\d+\.\d+\.\d+` match at the head of `cs`?  (Maximal munch is
equivalent to the regex's backtracking here because a digit can never
match the literal dot.) -/
def matchVersionAt (cs : List Char) : Bool :=
  match digits1 cs with
  | some ('.' :: r1) =>
    match digits1 r1 with
    | some ('.' :: r2) => (digits1 r2).isSome
    | _ => false
  | _ => false

/-- `re.search('\d+\.\d+\.\d+.*', s)`: the pattern matches at some
position of `s` (the trailing `.*` constrains nothing). -/
def hasVersionPattern (s : String) : Bool :=
  s.data.tails.any matchVersionAt

/-- `_PDFBoxVersionsParser.handle_starttag`: the entries one start tag
appends to `self.result`. -/
def handle_starttag (t : Tag) : List String :=
  if t.name = "a" then
    t.attrs.filterMap (fun a =>
      if a.1 = "href" then
        if hasVersionPattern (stripSlashes a.2) then some (stripSlashes a.2) else none
      else none)
  else []

/-- `_PDFBoxVersionsParser.feed`: `self.result` after parsing the whole
document. -/
def parserFeed (page : List Tag) : List String :=
  page.flatMap handle_starttag

/-! ### `_get_latest_pdfbox_url` and `_get_pdfbox_path`

`_get_pdfbox_path` touches the environment (`PDFBOX` override), the
filesystem (cache directory scan, jar persistence) and the network (the
archive listing, the jar body, the checksum text).  `Env` gathers that
outside state; `Outcome` records the returned path or raised error
together with the observable effects: how many network requests were
made and which jar files were persisted in the cache directory under
their final name.  Network reads themselves are modelled as succeeding
(their failure branches raise unrelated `RuntimeError`s not at issue in
the claims). -/

def pdfbox_archive_url : String := "https://archive.apache.org/dist/pdfbox/"

/-- `_get_latest_pdfbox_url` minus the network fetch: from the parsed
listing page to the jar URL of the latest version.  `none` models the
`IndexError` of `sorted([])[-1]` when no version link was found. -/
def get_latest_pdfbox_url (page : List Tag) : Option String :=
  (selectLatestVersion (parserFeed page)).map
    (fun v => pdfbox_archive_url ++ v ++ "/pdfbox-app-" ++ v ++ ".jar")

/-- `re.search('pdfbox-app-([\w\.\-]+)\.jar', name).group(1)` on a cache
file name of the glob shape `pdfbox-app-*.jar`: the version between the
fixed prefix (11 characters) and the `.jar` suffix (4 characters). -/
def jarVersion (name : String) : String := (name.drop 11).dropRight 4

/-- The comparison `sorted(file_list, key=f)[-1]` sorts under: the
version key parsed out of the file name. -/
def jarKeyLe (a b : String) : Prop := versionKeyLe (jarVersion a) (jarVersion b)

instance : DecidableRel jarKeyLe := fun a b =>
  inferInstanceAs
    (Decidable (versionLe (pvKey (jarVersion a)) (pvKey (jarVersion b)) = true))

instance : IsTrans String jarKeyLe :=
  ⟨fun _ _ _ => versionLe_trans _ _ _⟩

instance : IsTotal String jarKeyLe :=
  ⟨fun _ _ => versionLe_total _ _⟩

instance : IsRefl String jarKeyLe :=
  ⟨fun _ => versionLe_refl _⟩

/-- `sorted(file_list, key=f)[-1]` over the cached jar file names. -/
def selectLatestJar (files : List String) : Option String :=
  (List.insertionSort jarKeyLe files).getLast?

/-- `pathlib.Path(url).name`: the last slash-separated component. -/
def pathName (url : String) : String :=
  String.mk ((splitOnChar '/' url.data).getLastD [])

/-- `PDFBox._verify_sha512(self, data, digest)`. -/
def verify_sha512 (data : List Nat) (digest : String) : Bool :=
  sha512hex data == digest

/-- The `RuntimeError`s (and the `IndexError`) `_get_pdfbox_path` can
raise, under the spec's error taxonomy. -/
inductive PdfboxError where
  /-- `RuntimeError('pdfbox not found')` — the spec's `ConfigError`. -/
  | pdfboxNotFound
  /-- `IndexError` from `sorted([])[-1]` — the spec's `ResolutionError`. -/
  | noVersions
  /-- `RuntimeError('failed to verify sha512sum')` — the spec's `IntegrityError`. -/
  | checksumMismatch
  deriving DecidableEq

/-- The outside state `_get_pdfbox_path` reads. -/
structure Env where
  /-- `os.environ['PDFBOX']` when set. -/
  pdfboxVar : Option String
  /-- Filesystem paths for which `pathlib.Path.exists()` is true. -/
  existingPaths : List String
  /-- `appdirs.AppDirs('python-pdfbox').user_cache_dir`. -/
  cacheDir : String
  /-- File names matching `cache_dir.glob('pdfbox-app-*.jar')`. -/
  cacheJars : List String
  /-- The archive listing page, as its start-tag event stream. -/
  page : List Tag
  /-- The body served for the jar URL. -/
  jarBytes : List Nat
  /-- The text served for the `.sha512` URL. -/
  shaText : String

instance : DecidableEq (Except PdfboxError String) := fun a b =>
  match a, b with
  | .ok x, .ok y => decidable_of_iff (x = y) (by simp)
  | .error x, .error y => decidable_of_iff (x = y) (by simp)
  | .ok _, .error _ => isFalse (by simp)
  | .error _, .ok _ => isFalse (by simp)

/-- What one call of `_get_pdfbox_path` returned and did. -/
structure Outcome where
  /-- The returned path, or the exception raised. -/
  result : Except PdfboxError String
  /-- How many `urllib.request.urlopen` calls were made. -/
  networkRequests : Nat
  /-- Jar file names persisted in the cache directory under their final
  name during the call. -/
  writtenJars : List String
  deriving DecidableEq

/-- `PDFBox._get_pdfbox_path`. -/
def get_pdfbox_path (e : Env) : Outcome :=
  match e.pdfboxVar with
  | some p =>
    -- `if 'PDFBOX' in os.environ:` — validate and return, touching
    -- neither the network nor the cache directory.
    if e.existingPaths.contains p then ⟨.ok p, 0, []⟩
    else ⟨.error .pdfboxNotFound, 0, []⟩
  | none =>
    if e.cacheJars.isEmpty = false then
      -- `if file_list: return sorted(file_list, key=f)[-1]`
      match selectLatestJar e.cacheJars with
      | some name => ⟨.ok (e.cacheDir ++ "/" ++ name), 0, []⟩
      | none => ⟨.error .noVersions, 0, []⟩  -- unreachable: the list is nonempty
    else
      -- `_get_latest_pdfbox_url()`: one request for the listing page.
      match get_latest_pdfbox_url e.page with
      | none => ⟨.error .noVersions, 1, []⟩
      | some url =>
        -- Second request: the jar body, written to the final cache path
        -- *before* any checksum is seen.  Third request: the checksum
        -- text, then verification.
        if verify_sha512 e.jarBytes (pyStrip e.shaText) then
          ⟨.ok (e.cacheDir ++ "/" ++ pathName url), 3, [pathName url]⟩
        else
          ⟨.error .checksumMismatch, 3, [pathName url]⟩

/-- The cache directory contents after a call: the jars written during
the call join the glob result of the next call. -/
def applyOutcome (e : Env) (o : Outcome) : Env :=
  { e with cacheJars := e.cacheJars ++ o.writtenJars }

/-! ### Operation methods: command-line assembly

Each operation builds an `options` string by concatenating conditional
fragments, exactly in the order the source writes them; a fragment is
`' -flagName'` or `' -flagName <value>'` when the parameter is truthy
(Python truthiness: `None`, `''`, `0` and `[]` are falsy) and `''`
otherwise.  The three fragment shapes below each embed one
`(' -flag ...' if param else '')` conditional of the source. -/

/-- Python truthiness of an optional string parameter. -/
def strTruthy : Option String → Bool
  | none => false
  | some s => !(s.isEmpty)

/-- Python truthiness of an optional integer parameter. -/
def natTruthy : Option Nat → Bool
  | none => false
  | some n => n != 0

/-- `(' -name {v}'.format(...) if v else '')` for a string parameter. -/
def strFlag (name : String) (v : Option String) : String :=
  if strTruthy v then " -" ++ name ++ " " ++ v.getD "" else ""

/-- `(' -name' if b else '')` for a boolean toggle. -/
def boolFlag (name : String) (b : Bool) : String :=
  if b then " -" ++ name else ""

/-- `(' -name {v}'.format(...) if v else '')` for a plain integer
parameter (`0` is falsy). -/
def intFlag (name : String) (n : Nat) : String :=
  if n != 0 then " -" ++ name ++ " " ++ toString n else ""

/-- `(' -name {v}'.format(...) if v else '')` for an optional integer
parameter. -/
def optNatFlag (name : String) (v : Option Nat) : String :=
  if natTruthy v then " -" ++ name ++ " " ++ toString (v.getD 0) else ""

/-- `(' -cropbox {c}'.format(c=" ".join(cropbox)) if cropbox else '')`:
an empty list is falsy. -/
def cropboxFlag (v : Option (List String)) : String :=
  match v with
  | none => ""
  | some l => if l.isEmpty then "" else " -cropbox " ++ String.intercalate " " l

/-- The names of emitted flags, in emission order: one entry per
nonempty fragment, paired positionally with the builder's fixed flag
list. -/
def emittedNames (names frags : List String) : List String :=
  (names.zip frags).filterMap (fun p => if p.2.isEmpty then none else some p.1)

/-! #### `extract_text` -/

/-- Parameters of `PDFBox.extract_text`, with the source's defaults. -/
structure ExtractTextArgs where
  input_path : String
  output_path : String := ""
  password : Option String := none
  encoding : Option String := none
  html : Bool := false
  sort : Bool := false
  ignore_beads : Bool := false
  start_page : Nat := 1
  end_page : Option Nat := none
  always_next : Bool := false

/-- The conditional fragments of `extract_text`'s `options`, in source
order. -/
def extractTextFragments (a : ExtractTextArgs) : List String :=
  [strFlag "password" a.password,
   strFlag "encoding" a.encoding,
   boolFlag "html" a.html,
   boolFlag "sort" a.sort,
   boolFlag "ignoreBeads" a.ignore_beads,
   intFlag "startPage" a.start_page,
   optNatFlag "endPage" a.end_page,
   boolFlag "alwaysNext" a.always_next]

/-- The flag names of `extract_text` in their fixed source order. -/
def extractTextFlagNames : List String :=
  ["password", "encoding", "html", "sort", "ignoreBeads", "startPage", "endPage", "alwaysNext"]

/-- `extract_text`'s `options` before the `-console` special case. -/
def extractTextOptions (a : ExtractTextArgs) : String :=
  String.join (extractTextFragments a)

/-- `extract_text`'s `options` after `if not output_path: options += ' -console'`. -/
def extractTextOptionsFull (a : ExtractTextArgs) : String :=
  extractTextOptions a ++ (if a.output_path.isEmpty then " -console" else "")

/-- The command line `extract_text` hands to `sarge.capture_both`. -/
def extractTextCmd (java_path pdfbox_path : String) (a : ExtractTextArgs) : String :=
  java_path ++ " -jar " ++ pdfbox_path ++ " ExtractText " ++ extractTextOptionsFull a ++
    " " ++ a.input_path ++ " " ++ a.output_path

/-- What `extract_text` hands back to the caller. -/
inductive ExtractResult where
  /-- `p.stdout.text` of the spawned command: the captured output text. -/
  | stdoutText (cmd : String)
  /-- The live process handle `p` of the spawned command. -/
  | handle (cmd : String)
  deriving DecidableEq

/-- `PDFBox.extract_text`. -/
def extract_text (java_path pdfbox_path : String) (a : ExtractTextArgs) : ExtractResult :=
  if a.output_path.isEmpty then .stdoutText (extractTextCmd java_path pdfbox_path a)
  else .handle (extractTextCmd java_path pdfbox_path a)

/-! #### `to_image` -/

/-- Parameters of `PDFBox.to_image` (value parameters interpolate via
`str.format`, so they are kept as strings; `output_prefix` is renamed
`outputPrefixArg` here; `time` is accepted and, as in the source, never
used). -/
structure ToImageArgs where
  input_path : String
  password : Option String := none
  image_type : Option String := none
  outputPrefixArg : Option String := none
  start_page : Option String := none
  end_page : Option String := none
  page : Option String := none
  dpi : Option String := none
  color : Option String := none
  cropbox : Option (List String) := none
  time : Option String := none

/-- The conditional fragments of `to_image`'s `options`, in source
order — the `color` fragment appears twice, as in the source. -/
def toImageFragments (a : ToImageArgs) : List String :=
  [strFlag "password" a.password,
   strFlag "imageType" a.image_type,
   strFlag "outputPrefix" a.outputPrefixArg,
   strFlag "startPage" a.start_page,
   strFlag "endPage" a.end_page,
   strFlag "page" a.page,
   strFlag "dpi" a.dpi,
   strFlag "color" a.color,
   cropboxFlag a.cropbox,
   strFlag "color" a.color]

/-- The flag names of `to_image` in their fixed source order. -/
def toImageFlagNames : List String :=
  ["password", "imageType", "outputPrefix", "startPage", "endPage", "page", "dpi",
   "color", "cropbox", "color"]

/-- `to_image`'s `options`. -/
def toImageOptions (a : ToImageArgs) : String :=
  String.join (toImageFragments a)

/-- The command line `to_image` hands to `self._run_cmd` (here the
input path precedes the options). -/
def toImageCmd (java_path pdfbox_path : String) (a : ToImageArgs) : String :=
  java_path ++ " -jar " ++ pdfbox_path ++ " PDFToImage " ++ a.input_path ++ " " ++
    toImageOptions a

/-! #### `merge` -/

/-- What a `merge` call does. -/
inductive MergeResult where
  /-- Fewer than two sources: print the message and return `None`; no
  process is spawned. -/
  | notEnough (printed : String)
  /-- The command line handed to `self._run_cmd`, which spawns exactly
  one process. -/
  | ran (cmd : String)
  deriving DecidableEq

/-- `PDFBox.merge`. -/
def merge (java_path pdfbox_path : String) (source_files : List String)
    (target_file : String) : MergeResult :=
  if source_files.length < 2 then
    .notEnough "Not enough source files to merge.  Need to have at least 2 source files."
  else
    .ran (java_path ++ " -jar " ++ pdfbox_path ++ " PDFMerger " ++
      String.intercalate " " source_files ++ " " ++ target_file)

/-! ### Helper lemmas about fragments and emitted flags -/

lemma append_eq_empty_iff (s t : String) : s ++ t = "" ↔ s = "" ∧ t = "" := by
  constructor
  · intro h
    have hd := String.ext_iff.mp h
    rw [String.data_append] at hd
    rcases List.append_eq_nil.mp hd with ⟨h1, h2⟩
    exact ⟨String.ext_iff.mpr h1, String.ext_iff.mpr h2⟩
  · rintro ⟨rfl, rfl⟩
    rfl

lemma append_isEmpty_false (s t : String) (hs : s.isEmpty = false) :
    (s ++ t).isEmpty = false := by
  rw [Bool.eq_false_iff]
  intro h
  rcases (append_eq_empty_iff s t).mp ((String.isEmpty_iff _).mp h) with ⟨rfl, -⟩
  exact absurd hs (by decide)

lemma strFlag_isEmpty (name : String) (v : Option String) :
    (strFlag name v).isEmpty = !strTruthy v := by
  cases hv : strTruthy v
  · have h : strFlag name v = "" := by simp [strFlag, hv]
    rw [h]; rfl
  · have h : strFlag name v = " -" ++ name ++ " " ++ v.getD "" := by simp [strFlag, hv]
    rw [h, String.append_assoc, String.append_assoc, Bool.not_true]
    exact append_isEmpty_false _ _ rfl

lemma boolFlag_isEmpty (name : String) (b : Bool) :
    (boolFlag name b).isEmpty = !b := by
  cases b
  · rfl
  · have h : boolFlag name true = " -" ++ name := by simp [boolFlag]
    rw [h, Bool.not_true]
    exact append_isEmpty_false _ _ rfl

lemma intFlag_isEmpty (name : String) (n : Nat) :
    (intFlag name n).isEmpty = !(n != 0) := by
  cases hn : n != 0
  · have h : intFlag name n = "" := by simp [intFlag, hn]
    rw [h]; rfl
  · have h : intFlag name n = " -" ++ name ++ " " ++ toString n := by simp [intFlag, hn]
    rw [h, String.append_assoc, String.append_assoc, Bool.not_true]
    exact append_isEmpty_false _ _ rfl

lemma optNatFlag_isEmpty (name : String) (v : Option Nat) :
    (optNatFlag name v).isEmpty = !natTruthy v := by
  cases hv : natTruthy v
  · have h : optNatFlag name v = "" := by simp [optNatFlag, hv]
    rw [h]; rfl
  · have h : optNatFlag name v = " -" ++ name ++ " " ++ toString (v.getD 0) := by
      simp [optNatFlag, hv]
    rw [h, String.append_assoc, String.append_assoc, Bool.not_true]
    exact append_isEmpty_false _ _ rfl

/-- Python truthiness of the optional `cropbox` list parameter. -/
def listTruthy : Option (List String) → Bool
  | none => false
  | some l => !l.isEmpty

lemma cropboxFlag_isEmpty (v : Option (List String)) :
    (cropboxFlag v).isEmpty = !listTruthy v := by
  cases v with
  | none => rfl
  | some l =>
    cases hl : l.isEmpty
    · have h : cropboxFlag (some l) = " -cropbox " ++ String.intercalate " " l := by
        simp [cropboxFlag, hl]
      have h2 : listTruthy (some l) = true := by simp [listTruthy, hl]
      rw [h, h2, Bool.not_true]
      exact append_isEmpty_false _ _ rfl
    · have h : cropboxFlag (some l) = "" := by simp [cropboxFlag, hl]
      have h2 : listTruthy (some l) = false := by simp [listTruthy, hl]
      rw [h, h2]; rfl

/-- Emitted names are always a sublist of the builder's fixed flag-name
order: no reordering can occur. -/
lemma emittedNames_sublist : ∀ (names frags : List String),
    (emittedNames names frags).Sublist names := by
  intro names
  induction names with
  | nil => intro frags; simp [emittedNames]
  | cons n ns ih =>
    intro frags
    cases frags with
    | nil => simp [emittedNames]
    | cons f fs =>
      simp only [emittedNames, List.zip_cons_cons, List.filterMap_cons]
      cases hf : f.isEmpty
      · simpa [hf] using (ih fs).cons₂ n
      · simpa [hf] using (ih fs).cons n

/-- The flag names a truthy parameter set switches on, in the builder's
fixed order. -/
def presentFlags (l : List (String × Bool)) : List String :=
  l.filterMap (fun p => if p.2 then some p.1 else none)

lemma count_presentFlags (nm : String) : ∀ l : List (String × Bool),
    (presentFlags l).count nm = l.countP (fun p => p.1 == nm && p.2) := by
  intro l
  induction l with
  | nil => rfl
  | cons p t ih =>
    cases hb : p.2
    · simp only [presentFlags, List.filterMap_cons, hb, List.countP_cons] at ih ⊢
      simp [ih]
    · by_cases hn : p.1 = nm
      · simp only [presentFlags, List.filterMap_cons, hb, List.countP_cons] at ih ⊢
        simp [ih, hn, List.count_cons]
      · simp only [presentFlags, List.filterMap_cons, hb, List.countP_cons] at ih ⊢
        simp [ih, hn, List.count_cons]

lemma flatten_filter_data : ∀ l : List String,
    (l.map String.data).flatten = ((l.filter (fun f => !f.isEmpty)).map String.data).flatten := by
  intro l
  induction l with
  | nil => rfl
  | cons h t ih =>
    cases hh : h.isEmpty
    · simp only [List.map_cons, List.flatten_cons, List.filter_cons, hh, Bool.not_false,
        if_pos, ih]
    · have he : h = "" := (String.isEmpty_iff _).mp hh
      subst he
      have hd : ("" : String).data = [] := rfl
      simp only [List.filter_cons, hh, Bool.not_true, List.map_cons, List.flatten_cons, hd,
        List.nil_append]
      · exact ih

/-- Dropping empty fragments does not change the joined string: empty
fragments contribute no token at all. -/
lemma join_filter_ne_empty (l : List String) :
    String.join l = String.join (l.filter (fun f => !f.isEmpty)) := by
  rw [String.ext_iff, String.join_eq, String.join_eq]
  exact flatten_filter_data l

lemma emittedNames_cons (n f : String) (ns fs : List String) :
    emittedNames (n :: ns) (f :: fs) =
      if f.isEmpty then emittedNames ns fs else n :: emittedNames ns fs := by
  cases hf : f.isEmpty <;> simp [emittedNames, List.zip_cons_cons, List.filterMap_cons, hf]

lemma presentFlags_cons (n : String) (c : Bool) (t : List (String × Bool)) :
    presentFlags ((n, c) :: t) = if c then n :: presentFlags t else presentFlags t := by
  cases c <;> simp [presentFlags, List.filterMap_cons]

lemma emittedNames_nil : emittedNames [] [] = [] := rfl

lemma presentFlags_nil : presentFlags [] = [] := rfl

lemma ite_not_bool {α : Type} (c : Bool) (a b : α) :
    (if (!c) = true then a else b) = if c = true then b else a := by
  cases c <;> rfl

/-- What the emitted flags of `extract_text` are. -/
lemma extractText_emitted (a : ExtractTextArgs) :
    emittedNames extractTextFlagNames (extractTextFragments a) =
      presentFlags
        [("password", strTruthy a.password), ("encoding", strTruthy a.encoding),
         ("html", a.html), ("sort", a.sort), ("ignoreBeads", a.ignore_beads),
         ("startPage", a.start_page != 0), ("endPage", natTruthy a.end_page),
         ("alwaysNext", a.always_next)] := by
  simp only [extractTextFlagNames, extractTextFragments, emittedNames_cons,
    presentFlags_cons, strFlag_isEmpty, boolFlag_isEmpty, intFlag_isEmpty,
    optNatFlag_isEmpty, ite_not_bool, emittedNames_nil, presentFlags_nil]

/-- What the emitted flags of `to_image` are. -/
lemma toImage_emitted (b : ToImageArgs) :
    emittedNames toImageFlagNames (toImageFragments b) =
      presentFlags
        [("password", strTruthy b.password), ("imageType", strTruthy b.image_type),
         ("outputPrefix", strTruthy b.outputPrefixArg), ("startPage", strTruthy b.start_page),
         ("endPage", strTruthy b.end_page), ("page", strTruthy b.page),
         ("dpi", strTruthy b.dpi), ("color", strTruthy b.color),
         ("cropbox", listTruthy b.cropbox), ("color", strTruthy b.color)] := by
  simp only [toImageFlagNames, toImageFragments, emittedNames_cons,
    presentFlags_cons, strFlag_isEmpty, cropboxFlag_isEmpty, ite_not_bool,
    emittedNames_nil, presentFlags_nil]

/-! ### Claim theorems -/

/-- C2: whenever the `PDFBOX` override variable is set, `_get_pdfbox_path`
validates that the referenced path exists, raising
`RuntimeError('pdfbox not found')` (the spec's `ConfigError`) when it
does not, and otherwise returns that path immediately; in both cases it
makes zero network requests and writes nothing to the cache, so an
override pointing at a missing path fails facade construction before
any network access. -/
theorem env_override_validated (e : Env) (p : String) (hvar : e.pdfboxVar = some p) :
    ((e.existingPaths.contains p) = false →
      get_pdfbox_path e = ⟨.error .pdfboxNotFound, 0, []⟩) ∧
    ((e.existingPaths.contains p) = true →
      get_pdfbox_path e = ⟨.ok p, 0, []⟩) := by
  constructor <;> intro h
  · have h2 : p ∉ e.existingPaths := by simpa using h
    simp [get_pdfbox_path, hvar, h2]
  · have h2 : p ∈ e.existingPaths := by simpa using h
    simp [get_pdfbox_path, hvar, h2]

def c2EnvMissing : Env :=
  { pdfboxVar := some "/nonexistent/pdfbox.jar", existingPaths := [], cacheDir := "/cache",
    cacheJars := [], page := [], jarBytes := [], shaText := "" }

def c2EnvPresent : Env :=
  { pdfboxVar := some "/opt/pdfbox.jar", existingPaths := ["/opt/pdfbox.jar"],
    cacheDir := "/cache", cacheJars := [], page := [], jarBytes := [], shaText := "" }

/-- C2 witness: the two override scenarios at concrete environments. -/
theorem env_override_validated_witness :
    get_pdfbox_path c2EnvMissing = ⟨.error .pdfboxNotFound, 0, []⟩ ∧
    get_pdfbox_path c2EnvPresent = ⟨.ok "/opt/pdfbox.jar", 0, []⟩ :=
  ⟨(env_override_validated c2EnvMissing _ rfl).1 (by decide),
   (env_override_validated c2EnvPresent _ rfl).2 (by decide)⟩

/-- C4: with no override and a nonempty cache, `_get_pdfbox_path` makes
zero network requests, writes nothing, leaves the cache state unchanged,
returns the path of a cached jar, and a second call returns the same
outcome. -/
theorem cache_resolution_idempotent (e : Env) (hvar : e.pdfboxVar = none)
    (hcache : e.cacheJars ≠ []) :
    (get_pdfbox_path e).networkRequests = 0 ∧
    (get_pdfbox_path e).writtenJars = [] ∧
    applyOutcome e (get_pdfbox_path e) = e ∧
    (∃ name, name ∈ e.cacheJars ∧
      (get_pdfbox_path e).result = .ok (e.cacheDir ++ "/" ++ name)) ∧
    get_pdfbox_path (applyOutcome e (get_pdfbox_path e)) = get_pdfbox_path e := by
  have hsne : List.insertionSort jarKeyLe e.cacheJars ≠ [] := by
    intro h
    have hp := List.perm_insertionSort jarKeyLe e.cacheJars
    rw [h] at hp
    exact hcache hp.symm.eq_nil
  obtain ⟨name, hsel⟩ : ∃ name, selectLatestJar e.cacheJars = some name := by
    unfold selectLatestJar
    rw [List.getLast?_eq_getLast_of_ne_nil hsne]
    exact ⟨_, rfl⟩
  have hname : name ∈ e.cacheJars := by
    have hmem : name ∈ List.insertionSort jarKeyLe e.cacheJars := by
      unfold selectLatestJar at hsel
      rw [List.getLast?_eq_getLast_of_ne_nil hsne] at hsel
      cases hsel
      exact List.getLast_mem hsne
    exact (List.perm_insertionSort jarKeyLe e.cacheJars).mem_iff.mp hmem
  have hempty : e.cacheJars.isEmpty = false := by
    revert hcache
    cases e.cacheJars <;> simp
  have hout : get_pdfbox_path e = ⟨.ok (e.cacheDir ++ "/" ++ name), 0, []⟩ := by
    simp [get_pdfbox_path, hvar, hempty, hsel]
  have ha : applyOutcome e (get_pdfbox_path e) = e := by
    rw [hout]
    simp [applyOutcome]
  exact ⟨by rw [hout], by rw [hout], ha, ⟨name, hname, by rw [hout]⟩, by rw [ha]⟩

def c4Env : Env :=
  { pdfboxVar := none, existingPaths := [], cacheDir := "/cache",
    cacheJars := ["pdfbox-app-2.0.9.jar", "pdfbox-app-2.0.27.jar"], page := [],
    jarBytes := [], shaText := "" }

/-- C4 witness: idempotent cache hit on a concrete two-jar cache. -/
theorem cache_resolution_idempotent_witness :
    (get_pdfbox_path c4Env).networkRequests = 0 ∧
    (∃ name, name ∈ c4Env.cacheJars ∧
      (get_pdfbox_path c4Env).result = .ok (c4Env.cacheDir ++ "/" ++ name)) ∧
    get_pdfbox_path (applyOutcome c4Env (get_pdfbox_path c4Env)) = get_pdfbox_path c4Env :=
  (fun h => ⟨h.1, h.2.2.2.1, h.2.2.2.2⟩)
    (cache_resolution_idempotent c4Env rfl (by decide))

/-- Plain lexicographic (code-point) comparison of strings, the
ordering Python would use when comparing the version strings directly. -/
def strLtB : List Char → List Char → Bool
  | [], [] => false
  | [], _ :: _ => true
  | _ :: _, [] => false
  | a :: as, b :: bs => if a < b then true else if a = b then strLtB as bs else false

lemma wellFormed_of_key_ge {s v : String} (hs : wellFormedVersion s = true)
    (h : versionLe (pvKey s) (pvKey v) = true) : wellFormedVersion v = true := by
  cases hv : parseValidChars ((pyStrip v).data.map Char.toLower) with
  | some pv =>
    unfold wellFormedVersion
    rw [hv]
    rfl
  | none =>
    exfalso
    unfold wellFormedVersion at hs
    obtain ⟨pvs, hpvs⟩ := Option.isSome_iff_exists.mp hs
    unfold pvKey at h
    rw [hpvs, hv] at h
    simp [versionLe] at h

/-- C3: on a collection of version strings containing at least one
well-formed (parseable) entry, the selection of
`sorted(..., key=pkg_resources.parse_version)[-1]` is a member, is
itself well-formed, and is maximal under the `parse_version` ordering
(numeric component-wise release comparison with pre/post/dev handling,
unparseable strings below every parseable one); the cached-jar
selection is maximal under the same ordering on the version parsed
from the file name.  Concretely: `"2.10.0"` beats `"2.9.0"` although
plain string ordering says the opposite, the pre-release `"2.0.0-RC1"`
loses to the release `"2.0.0"` in either input order, and a collection
with an unparseable entry still selects its greatest parseable
version. -/
theorem version_selection_semantic (l : List String)
    (hwf : ∃ s ∈ l, wellFormedVersion s = true) :
    (∃ v, selectLatestVersion l = some v ∧ v ∈ l ∧ wellFormedVersion v = true ∧
      ∀ u ∈ l, versionLe (pvKey u) (pvKey v) = true) ∧
    (∀ (files : List String) (w : String), selectLatestJar files = some w →
      ∀ u ∈ files,
        versionLe (pvKey (jarVersion u)) (pvKey (jarVersion w)) = true) ∧
    (selectLatestVersion ["2.9.0", "2.10.0"] = some "2.10.0" ∧
      strLtB "2.10.0".data "2.9.0".data = true) ∧
    (selectLatestVersion ["2.0.0-RC1", "2.0.0"] = some "2.0.0" ∧
      selectLatestVersion ["2.0.0", "2.0.0-RC1"] = some "2.0.0" ∧
      selectLatestVersion ["2.0.0-RC1", "not-a-version", "2.0.0-RC2"] =
        some "2.0.0-RC2") := by
  refine ⟨?_, ?_, ⟨by decide, by decide⟩, ⟨by decide, by decide, by decide⟩⟩
  · obtain ⟨s, hsl, hswf⟩ := hwf
    have hne : l ≠ [] := List.ne_nil_of_mem hsl
    have hsne : List.insertionSort versionKeyLe l ≠ [] := by
      intro h
      have hp := List.perm_insertionSort versionKeyLe l
      rw [h] at hp
      exact hne hp.symm.eq_nil
    have hmax : ∀ u ∈ l,
        versionLe (pvKey u) (pvKey ((List.insertionSort versionKeyLe l).getLast hsne)) =
          true := by
      intro u hu
      have hu2 : u ∈ List.insertionSort versionKeyLe l :=
        (List.perm_insertionSort versionKeyLe l).mem_iff.mpr hu
      exact rel_getLast_of_sorted (List.sorted_insertionSort versionKeyLe l) u hu2 hsne
    refine ⟨(List.insertionSort versionKeyLe l).getLast hsne, ?_, ?_,
      wellFormed_of_key_ge hswf (hmax s hsl), hmax⟩
    · unfold selectLatestVersion
      exact List.getLast?_eq_getLast_of_ne_nil hsne
    · exact (List.perm_insertionSort versionKeyLe l).mem_iff.mp (List.getLast_mem hsne)
  · intro files w hsel u hu
    have hfne : files ≠ [] := by
      intro h
      subst h
      cases hsel
    have hsne : List.insertionSort jarKeyLe files ≠ [] := by
      intro h
      have hp := List.perm_insertionSort jarKeyLe files
      rw [h] at hp
      exact hfne hp.symm.eq_nil
    have h2 := rel_getLast?_of_sorted (List.sorted_insertionSort jarKeyLe files) hsel
    exact h2 u ((List.perm_insertionSort jarKeyLe files).mem_iff.mpr hu)

/-- C3 witness: the crucial pair `"2.9.0"` vs `"2.10.0"`. -/
theorem version_selection_semantic_witness :
    ∃ v, selectLatestVersion ["2.9.0", "2.10.0"] = some v ∧ v ∈ ["2.9.0", "2.10.0"] ∧
      wellFormedVersion v = true ∧
      ∀ u ∈ ["2.9.0", "2.10.0"], versionLe (pvKey u) (pvKey v) = true :=
  (version_selection_semantic ["2.9.0", "2.10.0"] ⟨"2.9.0", by decide, by decide⟩).1


/-! ### C5: the versions parser -/

def dupPage : List Tag := [⟨"a", [("href", "2.0.0/")]⟩, ⟨"a", [("href", "2.0.0/")]⟩]

/-- C5 counterexample: a page carrying the same matching link twice
produces `["2.0.0", "2.0.0"]` — a list with a duplicate, not a
duplicate-collapsed set. -/
theorem parser_duplicates_not_collapsed :
    parserFeed dupPage = ["2.0.0", "2.0.0"] ∧ ¬ (parserFeed dupPage).Nodup := by
  constructor
  · decide
  · decide

/-- C5 (amended): the parser returns the *list* of matching anchor-link
targets in document order, duplicates retained (feeding a document
twice doubles the result); every returned entry matches the version
pattern; and on a page with no matching link the result is empty, so
the latest-URL computation fails. -/
theorem parser_list_semantics (page : List Tag) :
    (∀ s ∈ parserFeed page, hasVersionPattern s = true) ∧
    parserFeed (page ++ page) = parserFeed page ++ parserFeed page ∧
    (parserFeed page = [] → get_latest_pdfbox_url page = none) := by
  refine ⟨?_, ?_, ?_⟩
  · intro s hs
    unfold parserFeed at hs
    rcases List.mem_flatMap.mp hs with ⟨t, ht, hst⟩
    unfold handle_starttag at hst
    by_cases hta : t.name = "a"
    · rw [if_pos hta] at hst
      rcases List.mem_filterMap.mp hst with ⟨attr, ha2, he⟩
      by_cases hh : attr.1 = "href"
      · rw [if_pos hh] at he
        by_cases hm : hasVersionPattern (stripSlashes attr.2) = true
        · rw [if_pos hm] at he
          cases he
          exact hm
        · rw [if_neg hm] at he
          cases he
      · rw [if_neg hh] at he
        cases he
    · rw [if_neg hta] at hst
      cases hst
  · unfold parserFeed
    exact List.flatMap_append _ _ _
  · intro h
    unfold get_latest_pdfbox_url
    rw [h]
    rfl

def noMatchPage : List Tag := [⟨"a", [("href", "fred")]⟩]

/-- C5 witness for the amended claim: a page whose only link does not
match leaves the result empty and the URL computation without a
result. -/
theorem parser_list_semantics_witness :
    get_latest_pdfbox_url noMatchPage = none :=
  (parser_list_semantics noMatchPage).2.2 (by decide)

/-! ### C6/C7/C9/C10: the operation methods -/

lemma strFlag_shape (name : String) (v : Option String) :
    strFlag name v = "" ∨ ∃ val, strFlag name v = " -" ++ name ++ " " ++ val := by
  cases hv : strTruthy v
  · exact Or.inl (by simp [strFlag, hv])
  · exact Or.inr ⟨v.getD "", by simp [strFlag, hv]⟩

lemma boolFlag_shape (name : String) (b : Bool) :
    boolFlag name b = "" ∨ boolFlag name b = " -" ++ name := by
  cases b
  · exact Or.inl rfl
  · exact Or.inr (by simp [boolFlag])

lemma intFlag_shape (name : String) (n : Nat) :
    intFlag name n = "" ∨ ∃ val, intFlag name n = " -" ++ name ++ " " ++ val := by
  cases hn : n != 0
  · exact Or.inl (by simp [intFlag, hn])
  · exact Or.inr ⟨toString n, by simp [intFlag, hn]⟩

lemma optNatFlag_shape (name : String) (v : Option Nat) :
    optNatFlag name v = "" ∨ ∃ val, optNatFlag name v = " -" ++ name ++ " " ++ val := by
  cases hv : natTruthy v
  · exact Or.inl (by simp [optNatFlag, hv])
  · exact Or.inr ⟨toString (v.getD 0), by simp [optNatFlag, hv]⟩

lemma cropboxFlag_shape (v : Option (List String)) :
    cropboxFlag v = "" ∨ ∃ val, cropboxFlag v = " -" ++ "cropbox" ++ " " ++ val := by
  cases v with
  | none => exact Or.inl rfl
  | some l =>
    cases hl : l.isEmpty
    · refine Or.inr ⟨String.intercalate " " l, ?_⟩
      have h1 : cropboxFlag (some l) = " -cropbox " ++ String.intercalate " " l := by
        simp [cropboxFlag, hl]
      have h2 : (" -" ++ "cropbox" ++ " ") = " -cropbox " := by decide
      rw [h1, ← h2]
    · exact Or.inl (by simp [cropboxFlag, hl])

/-- C6: the serialized options keep the flags in the builder's fixed
order (the emitted names are exactly the truthy parameters, in order, a
sublist of the fixed flag list), every fragment is either `-flagName`
or `-flagName value` preceded by a space, a flag whose parameter is
falsy is omitted entirely, and empty fragments contribute no token (the
options string equals the join of the nonempty fragments alone) — for
both `extract_text` and `to_image`. -/
theorem flag_order_and_omission (a : ExtractTextArgs) (b : ToImageArgs) :
    (extractTextOptions a =
        String.join ((extractTextFragments a).filter (fun f => !f.isEmpty)) ∧
      (emittedNames extractTextFlagNames (extractTextFragments a)).Sublist
        extractTextFlagNames ∧
      emittedNames extractTextFlagNames (extractTextFragments a) =
        presentFlags
          [("password", strTruthy a.password), ("encoding", strTruthy a.encoding),
           ("html", a.html), ("sort", a.sort), ("ignoreBeads", a.ignore_beads),
           ("startPage", a.start_page != 0), ("endPage", natTruthy a.end_page),
           ("alwaysNext", a.always_next)] ∧
      ∀ f ∈ extractTextFragments a, f = "" ∨
        ∃ nm val, nm ∈ extractTextFlagNames ∧
          (f = " -" ++ nm ∨ f = " -" ++ nm ++ " " ++ val)) ∧
    (toImageOptions b =
        String.join ((toImageFragments b).filter (fun f => !f.isEmpty)) ∧
      (emittedNames toImageFlagNames (toImageFragments b)).Sublist toImageFlagNames ∧
      emittedNames toImageFlagNames (toImageFragments b) =
        presentFlags
          [("password", strTruthy b.password), ("imageType", strTruthy b.image_type),
           ("outputPrefix", strTruthy b.outputPrefixArg),
           ("startPage", strTruthy b.start_page), ("endPage", strTruthy b.end_page),
           ("page", strTruthy b.page), ("dpi", strTruthy b.dpi),
           ("color", strTruthy b.color), ("cropbox", listTruthy b.cropbox),
           ("color", strTruthy b.color)] ∧
      ∀ f ∈ toImageFragments b, f = "" ∨
        ∃ nm val, nm ∈ toImageFlagNames ∧
          (f = " -" ++ nm ∨ f = " -" ++ nm ++ " " ++ val)) := by
  refine ⟨⟨join_filter_ne_empty _, emittedNames_sublist _ _, extractText_emitted a, ?_⟩,
    ⟨join_filter_ne_empty _, emittedNames_sublist _ _, toImage_emitted b, ?_⟩⟩
  · intro f hf
    simp only [extractTextFragments, List.mem_cons, List.not_mem_nil, or_false] at hf
    rcases hf with rfl | rfl | rfl | rfl | rfl | rfl | rfl | rfl
    · rcases strFlag_shape "password" a.password with h | ⟨val, h⟩
      · exact Or.inl h
      · exact Or.inr ⟨"password", val, by decide, Or.inr h⟩
    · rcases strFlag_shape "encoding" a.encoding with h | ⟨val, h⟩
      · exact Or.inl h
      · exact Or.inr ⟨"encoding", val, by decide, Or.inr h⟩
    · rcases boolFlag_shape "html" a.html with h | h
      · exact Or.inl h
      · exact Or.inr ⟨"html", "", by decide, Or.inl h⟩
    · rcases boolFlag_shape "sort" a.sort with h | h
      · exact Or.inl h
      · exact Or.inr ⟨"sort", "", by decide, Or.inl h⟩
    · rcases boolFlag_shape "ignoreBeads" a.ignore_beads with h | h
      · exact Or.inl h
      · exact Or.inr ⟨"ignoreBeads", "", by decide, Or.inl h⟩
    · rcases intFlag_shape "startPage" a.start_page with h | ⟨val, h⟩
      · exact Or.inl h
      · exact Or.inr ⟨"startPage", val, by decide, Or.inr h⟩
    · rcases optNatFlag_shape "endPage" a.end_page with h | ⟨val, h⟩
      · exact Or.inl h
      · exact Or.inr ⟨"endPage", val, by decide, Or.inr h⟩
    · rcases boolFlag_shape "alwaysNext" a.always_next with h | h
      · exact Or.inl h
      · exact Or.inr ⟨"alwaysNext", "", by decide, Or.inl h⟩
  · intro f hf
    simp only [toImageFragments, List.mem_cons, List.not_mem_nil, or_false] at hf
    rcases hf with rfl | rfl | rfl | rfl | rfl | rfl | rfl | rfl | rfl | rfl
    · rcases strFlag_shape "password" b.password with h | ⟨val, h⟩
      · exact Or.inl h
      · exact Or.inr ⟨"password", val, by decide, Or.inr h⟩
    · rcases strFlag_shape "imageType" b.image_type with h | ⟨val, h⟩
      · exact Or.inl h
      · exact Or.inr ⟨"imageType", val, by decide, Or.inr h⟩
    · rcases strFlag_shape "outputPrefix" b.outputPrefixArg with h | ⟨val, h⟩
      · exact Or.inl h
      · exact Or.inr ⟨"outputPrefix", val, by decide, Or.inr h⟩
    · rcases strFlag_shape "startPage" b.start_page with h | ⟨val, h⟩
      · exact Or.inl h
      · exact Or.inr ⟨"startPage", val, by decide, Or.inr h⟩
    · rcases strFlag_shape "endPage" b.end_page with h | ⟨val, h⟩
      · exact Or.inl h
      · exact Or.inr ⟨"endPage", val, by decide, Or.inr h⟩
    · rcases strFlag_shape "page" b.page with h | ⟨val, h⟩
      · exact Or.inl h
      · exact Or.inr ⟨"page", val, by decide, Or.inr h⟩
    · rcases strFlag_shape "dpi" b.dpi with h | ⟨val, h⟩
      · exact Or.inl h
      · exact Or.inr ⟨"dpi", val, by decide, Or.inr h⟩
    · rcases strFlag_shape "color" b.color with h | ⟨val, h⟩
      · exact Or.inl h
      · exact Or.inr ⟨"color", val, by decide, Or.inr h⟩
    · rcases cropboxFlag_shape b.cropbox with h | ⟨val, h⟩
      · exact Or.inl h
      · exact Or.inr ⟨"cropbox", val, by decide, Or.inr h⟩
    · rcases strFlag_shape "color" b.color with h | ⟨val, h⟩
      · exact Or.inl h
      · exact Or.inr ⟨"color", val, by decide, Or.inr h⟩

/-- C7: with no output path, `extract_text` appends `-console` to the
options and hands back the captured standard output text; with an
output path it appends no such flag and hands back the live process
handle. -/
theorem extract_text_dual_mode (java_path pdfbox_path : String) (a : ExtractTextArgs) :
    (a.output_path = "" →
      extract_text java_path pdfbox_path a =
        .stdoutText (extractTextCmd java_path pdfbox_path a) ∧
      extractTextOptionsFull a = extractTextOptions a ++ " -console") ∧
    (a.output_path ≠ "" →
      extract_text java_path pdfbox_path a =
        .handle (extractTextCmd java_path pdfbox_path a) ∧
      extractTextOptionsFull a = extractTextOptions a) := by
  constructor
  · intro h
    have he : a.output_path.isEmpty = true := by
      rw [String.isEmpty_iff]
      exact h
    constructor
    · simp [extract_text, he]
    · simp [extractTextOptionsFull, he]
  · intro h
    have he : a.output_path.isEmpty = false := by
      rw [Bool.eq_false_iff]
      intro hh
      exact h ((String.isEmpty_iff _).mp hh)
    constructor
    · simp [extract_text, he]
    · simp [extractTextOptionsFull, he, String.append_empty]

def c7ArgsConsole : ExtractTextArgs := { input_path := "in.pdf" }

def c7ArgsFile : ExtractTextArgs := { input_path := "in.pdf", output_path := "out.txt" }

/-- C7 witness: the two modes at concrete argument sets. -/
theorem extract_text_dual_mode_witness :
    extract_text "java" "box.jar" c7ArgsConsole =
      .stdoutText (extractTextCmd "java" "box.jar" c7ArgsConsole) ∧
    extractTextOptionsFull c7ArgsConsole = extractTextOptions c7ArgsConsole ++ " -console" ∧
    extract_text "java" "box.jar" c7ArgsFile =
      .handle (extractTextCmd "java" "box.jar" c7ArgsFile) ∧
    extractTextOptionsFull c7ArgsFile = extractTextOptions c7ArgsFile :=
  ⟨((extract_text_dual_mode "java" "box.jar" c7ArgsConsole).1 rfl).1,
   ((extract_text_dual_mode "java" "box.jar" c7ArgsConsole).1 rfl).2,
   ((extract_text_dual_mode "java" "box.jar" c7ArgsFile).2 (by decide)).1,
   ((extract_text_dual_mode "java" "box.jar" c7ArgsFile).2 (by decide)).2⟩

/-- C9: `merge` with fewer than two source files prints its message and
returns `None` — no error is raised and no child process command is
produced. -/
theorem merge_too_few_noop (java_path pdfbox_path target : String) (files : List String)
    (h : files.length < 2) :
    merge java_path pdfbox_path files target =
      .notEnough "Not enough source files to merge.  Need to have at least 2 source files." ∧
    ∀ cmd, merge java_path pdfbox_path files target ≠ .ran cmd := by
  have h1 : merge java_path pdfbox_path files target =
      .notEnough "Not enough source files to merge.  Need to have at least 2 source files." := by
    simp [merge, h]
  refine ⟨h1, fun cmd hc => ?_⟩
  rw [h1] at hc
  cases hc

/-- C9 witness: a single-file merge call at concrete arguments. -/
theorem merge_too_few_noop_witness :
    merge "java" "box.jar" ["a.pdf"] "merged.pdf" =
      .notEnough "Not enough source files to merge.  Need to have at least 2 source files." :=
  (merge_too_few_noop "java" "box.jar" "merged.pdf" ["a.pdf"] (by decide)).1

lemma mem_presentFlags {nm : String} :
    ∀ {l : List (String × Bool)}, nm ∈ presentFlags l →
      ∃ p ∈ l, p.1 = nm ∧ p.2 = true := by
  intro l h
  unfold presentFlags at h
  rcases List.mem_filterMap.mp h with ⟨p, hp, he⟩
  cases hb : p.2
  · rw [hb] at he
    cases he
  · rw [hb] at he
    simp only [if_pos] at he
    exact ⟨p, hp, Option.some.inj he, hb⟩

/-- C10: when a color value is provided, `to_image` emits the `-color`
flag twice (at the seventh and ninth fragment slots, and twice among
the emitted names); and `extract_text` with `start_page = 0` or
`end_page = 0` omits the corresponding flag entirely, because `0` is
falsy. -/
theorem color_twice_and_zero_page_omitted (b : ToImageArgs) (a : ExtractTextArgs) :
    (strTruthy b.color = true →
      (toImageFragments b).getD 7 "" = " -color " ++ b.color.getD "" ∧
      (toImageFragments b).getD 9 "" = " -color " ++ b.color.getD "" ∧
      (emittedNames toImageFlagNames (toImageFragments b)).count "color" = 2) ∧
    (a.start_page = 0 →
      "startPage" ∉ emittedNames extractTextFlagNames (extractTextFragments a)) ∧
    (a.end_page = some 0 →
      "endPage" ∉ emittedNames extractTextFlagNames (extractTextFragments a)) := by
  refine ⟨?_, ?_, ?_⟩
  · intro hc
    refine ⟨?_, ?_, ?_⟩
    · simp [toImageFragments, strFlag, hc]
    · simp [toImageFragments, strFlag, hc]
    · rw [toImage_emitted, count_presentFlags]
      simp [List.countP_cons, hc]
  · intro h0
    rw [extractText_emitted]
    intro hmem
    rcases mem_presentFlags hmem with ⟨p, hp, hnm, htrue⟩
    simp only [List.mem_cons, List.not_mem_nil, or_false] at hp
    rcases hp with rfl | rfl | rfl | rfl | rfl | rfl | rfl | rfl
    · simp at hnm
    · simp at hnm
    · simp at hnm
    · simp at hnm
    · simp at hnm
    · rw [h0] at htrue
      simp at htrue
    · simp at hnm
    · simp at hnm
  · intro h0
    rw [extractText_emitted]
    intro hmem
    rcases mem_presentFlags hmem with ⟨p, hp, hnm, htrue⟩
    simp only [List.mem_cons, List.not_mem_nil, or_false] at hp
    rcases hp with rfl | rfl | rfl | rfl | rfl | rfl | rfl | rfl
    · simp at hnm
    · simp at hnm
    · simp at hnm
    · simp at hnm
    · simp at hnm
    · simp at hnm
    · rw [h0] at htrue
      simp [natTruthy] at htrue
    · simp at hnm

def c10Image : ToImageArgs := { input_path := "in.pdf", color := some "rgb" }

def c10Extract : ExtractTextArgs :=
  { input_path := "in.pdf", start_page := 0, end_page := some 0 }

/-- C10 witness: concrete calls exhibiting the duplicate `-color` and
the omitted zero page flags. -/
theorem color_twice_and_zero_page_omitted_witness :
    (toImageFragments c10Image).getD 7 "" = " -color rgb" ∧
    (emittedNames toImageFlagNames (toImageFragments c10Image)).count "color" = 2 ∧
    "startPage" ∉ emittedNames extractTextFlagNames (extractTextFragments c10Extract) ∧
    "endPage" ∉ emittedNames extractTextFlagNames (extractTextFragments c10Extract) :=
  ⟨((color_twice_and_zero_page_omitted c10Image c10Extract).1 rfl).1,
   ((color_twice_and_zero_page_omitted c10Image c10Extract).1 rfl).2.2,
   (color_twice_and_zero_page_omitted c10Image c10Extract).2.1 rfl,
   (color_twice_and_zero_page_omitted c10Image c10Extract).2.2 rfl⟩


/-! ### C8: checksum verification -/

/-- The uppercase rendering of the SHA-512 digest of the empty byte
string. -/
def upperDigestNil : String :=
  "CF83E1357EEFB8BDF1542850D66D8007D620E4050B5715DC83F4A921D36CE9CE47D0D13C5D85F2B0FF8318D2877EEC2F63B931BD47417A81A538327AF927DA3E"

/-- Python `str.lower()` on ASCII strings. -/
def lowerStr (s : String) : String := String.mk (s.data.map Char.toLower)

/-- C8 counterexample: `_verify_sha512` compares with `==`, not
case-insensitively — the empty payload against the uppercase rendering
of its own correct digest is rejected, although the two digests agree
up to case. -/
theorem verify_not_case_insensitive :
    verify_sha512 [] upperDigestNil = false ∧ lowerStr upperDigestNil = sha512hex [] := by
  constructor
  · unfold verify_sha512
    rw [sha512hex_nil]
    decide
  · rw [sha512hex_nil]
    decide

/-- C8 (amended): verification is sound and exact — it succeeds on the
correct digest and, in general, succeeds exactly when the fetched text
equals the lowercase hex digest character for character (hence any
other digest, including a re-cased one, fails). -/
theorem verify_sha512_exact (data : List Nat) (digest : String) :
    verify_sha512 data (sha512hex data) = true ∧
    (verify_sha512 data digest = true ↔ digest = sha512hex data) := by
  constructor
  · unfold verify_sha512
    exact beq_self_eq_true _
  · unfold verify_sha512
    rw [beq_iff_eq]
    exact eq_comm

/-! ### C1: checksum mismatch leaves the jar in the cache -/

/-- Empty cache, no override; the archive lists version `2.0.27`, the
jar download yields the empty byte string, and the served checksum text
does not match its digest. -/
def c1Env : Env :=
  { pdfboxVar := none, existingPaths := [], cacheDir := "/cache", cacheJars := [],
    page := [⟨"a", [("href", "2.0.27/")]⟩], jarBytes := [], shaText := "deadbeef" }

/-- C1: on checksum mismatch `_get_pdfbox_path` does raise
(`RuntimeError('failed to verify sha512sum')`, the spec's
`IntegrityError`) — but only after the downloaded bytes were already
written to the final cache path `pdfbox-app-2.0.27.jar`, which stays
behind; the cache state is *not* unchanged. -/
theorem checksum_mismatch_persists_jar :
    (get_pdfbox_path c1Env).result = .error .checksumMismatch ∧
    "pdfbox-app-2.0.27.jar" ∈ (get_pdfbox_path c1Env).writtenJars := by
  have hv : verify_sha512 c1Env.jarBytes (pyStrip c1Env.shaText) = false := by
    show verify_sha512 [] (pyStrip "deadbeef") = false
    unfold verify_sha512
    rw [sha512hex_nil]
    decide
  have hurl : get_latest_pdfbox_url c1Env.page =
      some "https://archive.apache.org/dist/pdfbox/2.0.27/pdfbox-app-2.0.27.jar" := by
    decide
  have hpn : pathName "https://archive.apache.org/dist/pdfbox/2.0.27/pdfbox-app-2.0.27.jar" =
      "pdfbox-app-2.0.27.jar" := by decide
  have h1 : c1Env.pdfboxVar = none := rfl
  have h2 : c1Env.cacheJars = [] := rfl
  have hres : get_pdfbox_path c1Env =
      ⟨.error .checksumMismatch, 3, ["pdfbox-app-2.0.27.jar"]⟩ := by
    simp [get_pdfbox_path, h1, h2, hurl, hv, hpn]
  rw [hres]
  exact ⟨rfl, by decide⟩

end Pdfbox
